import Mathlib

/-!
Verification of the glyph-outline-to-solid-mesh generation path of the
Easy3D TextMesher, together with the bounding-box drawable construction of
the Tutorial_301_Drawables program.

Only the TextMesher header (interface, data model, documented contract) is
present in the repository excerpt; the algorithm bodies are specified by the
design document. Definitions whose doc comment starts with
`Modelled from the spec:` embed that documented contract; the remaining
definitions are translated directly from the source files.

Floating-point coordinates are modelled by exact rationals.
-/

/-- A 2D point (the `vec2` value type of the source). -/
structure Vec2 where
  x : ℚ
  y : ℚ
deriving DecidableEq, Repr

/-- A 3D point (the `vec3` value type of the source). -/
structure Vec3 where
  x : ℚ
  y : ℚ
  z : ℚ
deriving DecidableEq, Repr

/-- A closed 2D polygon: ordered vertices, last implicitly connects to first. -/
abbrev Polygon2 := List Vec2

/-- From `text_mesher.h`: a contour is a closed polygon with an orientation
flag (`clockwise`); the source `struct Contour : Polygon2`. -/
structure Contour where
  points : Polygon2
  clockwise : Bool
deriving DecidableEq, Repr

/-- From `text_mesher.h`: `CharContour` is the sequence of contours of one
character, plus the character value. -/
structure CharContour where
  contours : List Contour
  character : Char
deriving DecidableEq, Repr

/-- An indexed triangle mesh: vertex positions plus index triples
(the `SurfaceMesh` output of the mesher, reduced to its geometric content). -/
structure IndexedMesh where
  vertices : List Vec3
  triangles : List (ℕ × ℕ × ℕ)
deriving DecidableEq, Repr

/-- The empty mesh. -/
def emptyMesh : IndexedMesh := ⟨[], []⟩

/-- The list of directed edges of a closed polygon (each vertex to its
successor, wrapping around). -/
def closedEdges (l : List Vec2) : List (Vec2 × Vec2) :=
  l.zip (l.drop 1 ++ l.take 1)

/-- The signed area of a closed polygon by the shoelace formula: positive
for counter-clockwise loops, negative for clockwise ones. -/
def signedArea (poly : Polygon2) : ℚ :=
  ((closedEdges poly).foldl (fun s e => s + (e.1.x * e.2.y - e.2.x * e.1.y)) 0) / 2

/-- One edge of a closed polygon crosses the horizontal ray cast from `p`
in the +X direction: the edge spans the ray level in y, and the ray hits the
edge strictly left of it (stated division-free by sign-aware
cross-multiplication). -/
def edgeCrossesRay (p : Vec2) (e : Vec2 × Vec2) : Bool :=
  (decide (e.1.y > p.y) != decide (e.2.y > p.y)) &&
  (if 0 < e.2.y - e.1.y then
     decide ((p.x - e.1.x) * (e.2.y - e.1.y) < (p.y - e.1.y) * (e.2.x - e.1.x))
   else
     decide ((p.y - e.1.y) * (e.2.x - e.1.x) < (p.x - e.1.x) * (e.2.y - e.1.y)))

/-- Even-odd ray-casting point-in-polygon test: casts a ray in +X direction
and counts crossings of the closed polygon boundary. -/
def insidePoly (p : Vec2) (poly : Polygon2) : Bool :=
  ((closedEdges poly).filter (edgeCrossesRay p)).length % 2 == 1

/-- A contour lies inside another when every one of its points passes the
point-in-polygon test against the other. -/
def contourInside (c d : Contour) : Bool :=
  c.points.all (fun p => insidePoly p d.points)

/-- A contour is outermost in a contour set when it lies inside no other
contour of the set. -/
def isOutermost (c : Contour) (cs : List Contour) : Prop :=
  ∀ d ∈ cs, d ≠ c → contourInside c d = false

/-!  ## Raw glyph outlines and the contour builder (spec section 4.1)  -/

/-- Modelled from the spec: one segment of a raw glyph outline loop as
delivered by the external font library — a straight segment or a quadratic
curve segment (section 4.1: a mix of straight segments and curve segments). -/
inductive RawSegment where
  | lineTo (p : Vec2)
  | conicTo (ctrl : Vec2) (p : Vec2)
deriving DecidableEq, Repr

/-- End point of a raw outline segment. -/
def segEnd : RawSegment → Vec2
  | .lineTo p => p
  | .conicTo _ p => p

/-- Point of the quadratic Bezier curve with end points `a`, `b` and control
point `c` at parameter `t`. -/
def quadPoint (a c b : Vec2) (t : ℚ) : Vec2 :=
  ⟨(1 - t) ^ 2 * a.x + 2 * (1 - t) * t * c.x + t ^ 2 * b.x,
   (1 - t) ^ 2 * a.y + 2 * (1 - t) * t * c.y + t ^ 2 * b.y⟩

/-- Modelled from the spec: flatten one outline segment starting at `cur`
into straight-line sample points; curve segments are subdivided with a fixed
subdivision count (section 4.1, the bezier steps, default 4). -/
def flattenSeg (steps : ℕ) (cur : Vec2) : RawSegment → List Vec2
  | .lineTo p => [p]
  | .conicTo c p => (List.range steps).map (fun i => quadPoint cur c p ((i + 1 : ℚ) / steps))

/-- Modelled from the spec: one closed raw outline loop of a glyph, given by
its start point and its segments (the last segment implicitly closes back). -/
structure RawLoop where
  start : Vec2
  segs : List RawSegment
deriving DecidableEq, Repr

/-- Flatten a list of raw segments, threading the current point. -/
def flattenSegs (steps : ℕ) : Vec2 → List RawSegment → List Vec2
  | _, [] => []
  | cur, s :: rest => flattenSeg steps cur s ++ flattenSegs steps (segEnd s) rest

/-- Modelled from the spec: discretize one raw outline loop into a closed
polygon (section 4.1). -/
def flattenLoop (steps : ℕ) (l : RawLoop) : Polygon2 :=
  l.start :: flattenSegs steps l.start l.segs

/-- Modelled from the spec: the outline data the external font library
returns for one glyph — its raw outline loops and its advance width
(sections 2 and 4.1; the library itself is an external collaborator). -/
structure Glyph where
  loops : List RawLoop
  advance : ℚ

/-!  ## The TextMesher instance state (from `text_mesher.h`)  -/

/-- The TextMesher instance. The private fields of `text_mesher.h` are
mirrored: the loaded font state (`font_library_` / `font_face_`) is modelled
by the `font`, `charIndex` and `rsbDelta` query functions; the external
polygon-triangulation library (excluded as a collaborator in spec section 1)
by the `triangulator` function; `ready_`, `font_file_`, `font_height_`,
`bezier_steps_`, `prev_char_index_`, `cur_char_index_` and `prev_rsb_delta_`
keep their roles. `areaEps` is the near-zero-area threshold of spec section
4.1, relative to the font height. -/
structure TextMesher where
  font : Char → Glyph
  charIndex : Char → ℕ
  rsbDelta : Char → ℤ
  triangulator : List Contour → IndexedMesh
  ready : Bool
  fontFile : String
  fontHeight : ℕ
  bezierSteps : ℕ
  areaEps : ℚ
  prevCharIndex : ℕ
  curCharIndex : ℕ
  prevRsbDelta : ℤ

/-- Modelled from the spec: turn one flattened loop into a contour, or
discard it — the signed-area sign sets the clockwise flag and loops whose
area magnitude is below the epsilon threshold are dropped as numerical
noise (section 4.1). -/
def buildContour (eps : ℚ) (pts : Polygon2) : Option Contour :=
  if -eps < signedArea pts ∧ signedArea pts < eps then none
  else some ⟨pts, decide (signedArea pts < 0)⟩

/-- Modelled from the spec: ContourBuilder (section 4.1) — flatten every raw
outline loop of the glyph, tag orientation by signed area, discard
near-zero-area loops, keep traversal order. Contours are in glyph-local
coordinates; translation to the pen position happens at assembly
(section 4.4). -/
def buildCharContour (m : TextMesher) (c : Char) : CharContour :=
  { contours := ((m.font c).loops.map (flattenLoop m.bezierSteps)).filterMap
      (buildContour m.areaEps),
    character := c }

/-- Modelled from the spec: `generate_contours(char, x, y)` of
`text_mesher.h` — returns the contours of the character, advances the pen by
the glyph advance (sections 4.1, 4.4; kerning is an optional refinement with
no fixed formula per section 9, so only the kerning-related instance fields
are updated), and returns the updated instance. -/
def generate_contours_char (m : TextMesher) (c : Char) (x y : ℚ) :
    CharContour × ℚ × ℚ × TextMesher :=
  (buildCharContour m c, x + (m.font c).advance, y,
   { m with curCharIndex := m.charIndex c,
            prevCharIndex := m.charIndex c,
            prevRsbDelta := m.rsbDelta c })

/-!  ## The extruder (spec section 4.3)  -/

/-- The three directed edges of one index triangle. -/
def triEdges (t : ℕ × ℕ × ℕ) : List (ℕ × ℕ) :=
  [(t.1, t.2.1), (t.2.1, t.2.2), (t.2.2, t.1)]

/-- Two directed edges coincide as undirected edges. -/
def undirMatch (e f : ℕ × ℕ) : Bool :=
  (e.1 == f.1 && e.2 == f.2) || (e.1 == f.2 && e.2 == f.1)

/-- Modelled from the spec: the boundary edges of a triangulation — the
edges not shared by two triangles (section 4.3). -/
def boundaryEdges (tris : List (ℕ × ℕ × ℕ)) : List (ℕ × ℕ) :=
  let all := tris.flatMap triEdges
  all.filter (fun e => (all.filter (fun f => undirMatch e f)).length == 1)

/-- Reverse the winding order of a triangle. -/
def reverseTri (t : ℕ × ℕ × ℕ) : ℕ × ℕ × ℕ := (t.1, t.2.2, t.2.1)

/-- Shift all indices of a triangle by an offset. -/
def shiftTri (n : ℕ) (t : ℕ × ℕ × ℕ) : ℕ × ℕ × ℕ :=
  (t.1 + n, t.2.1 + n, t.2.2 + n)

/-- Modelled from the spec: Extruder (section 4.3) — duplicate the flat
vertex set at z = 0 and z = height, emit the bottom cap with reversed
winding and the top cap shifted to the duplicated vertices, and for every
boundary edge two side-wall triangles connecting bottom and top. -/
def extrude (flat : IndexedMesh) (h : ℚ) : IndexedMesh :=
  let n := flat.vertices.length
  { vertices := flat.vertices.map (fun v => ⟨v.x, v.y, 0⟩)
             ++ flat.vertices.map (fun v => ⟨v.x, v.y, h⟩),
    triangles := flat.triangles.map reverseTri
              ++ flat.triangles.map (shiftTri n)
              ++ (boundaryEdges flat.triangles).flatMap
                   (fun e => [(e.1, e.2, e.2 + n), (e.1, e.2 + n, e.1 + n)]) }

/-- Modelled from the spec: minimal (fan) triangulation of one simple convex
contour into a flat mesh in the z = 0 plane (section 4.2; the round-trip
property of section 8 conditions on the cap triangulation being minimal). -/
def triangulateConvex (poly : Polygon2) : IndexedMesh :=
  { vertices := poly.map (fun p => ⟨p.x, p.y, 0⟩),
    triangles := (List.range (poly.length - 2)).map (fun i => (0, i + 1, i + 2)) }

/-!  ## Assembly and the two generate variants (spec section 4.4)  -/

/-- Translate all vertices of a mesh by (dx, dy) in the z = 0 plane. -/
def translateMesh (mesh : IndexedMesh) (dx dy : ℚ) : IndexedMesh :=
  { mesh with vertices := mesh.vertices.map (fun v => ⟨v.x + dx, v.y + dy, v.z⟩) }

/-- Append mesh `b` after mesh `a`, shifting the indices of `b` by the
running vertex offset (section 4.4: no deduplication across characters). -/
def appendMesh (a b : IndexedMesh) : IndexedMesh :=
  { vertices := a.vertices ++ b.vertices,
    triangles := a.triangles ++ b.triangles.map (shiftTri a.vertices.length) }

/-- Modelled from the spec: MeshAssembler (section 4.4) — per character,
generate contours, triangulate, extrude, translate by the starting pen
position of that character, and append with a running index offset; the
instance state is threaded through the per-character calls. -/
def generate_meshes (m : TextMesher) (text : List Char) (x y h : ℚ) :
    IndexedMesh × ℚ × ℚ × TextMesher :=
  match text with
  | [] => (emptyMesh, x, y, m)
  | c :: rest =>
    let r := generate_contours_char m c x y
    let solid := translateMesh (extrude (m.triangulator r.1.contours) h) x y
    let rec2 := generate_meshes r.2.2.2 rest r.2.1 r.2.2.1 h
    (appendMesh solid rec2.1, rec2.2.1, rec2.2.2.1, rec2.2.2.2)

/-- Modelled from the spec: the fresh-mesh variant
`generate(text, x, y, extrude)` of `text_mesher.h` — on an instance whose
font failed to load (not ready) or for empty input text it fails by
returning null, modelled as `none` (sections 4.4 and 7); otherwise it
returns the assembled mesh. The updated instance is returned alongside. -/
def generate_fresh (m : TextMesher) (text : List Char) (x y h : ℚ) :
    Option IndexedMesh × TextMesher :=
  if m.ready = false then (none, m)
  else if text = [] then (none, m)
  else
    let r := generate_meshes m text x y h
    (some r.1, r.2.2.2)

/-- Modelled from the spec: the append variant
`generate(mesh, text, x, y, extrude)` of `text_mesher.h` — a null target
mesh pointer (modelled as `none`), a not-ready instance, or empty input text
returns false without mutating the target; on success the generated surface
is appended to the target (sections 4.4 and 7). Returns the success flag,
the target state after the call, and the updated instance. -/
def generate_append (m : TextMesher) (target : Option IndexedMesh)
    (text : List Char) (x y h : ℚ) : Bool × Option IndexedMesh × TextMesher :=
  match target with
  | none => (false, none, m)
  | some tgt =>
    if m.ready = false then (false, some tgt, m)
    else if text = [] then (false, some tgt, m)
    else
      let r := generate_meshes m text x y h
      (true, some (appendMesh tgt r.1), r.2.2.2)

/-!  ## The bounding-box drawable of Tutorial_301_Drawables (part_000)  -/

/-- From the tutorial source: the eight corner points of the bounding box
built from the six box extents. -/
def bbox_points (xmin xmax ymin ymax zmin zmax : ℚ) : List Vec3 :=
  [⟨xmin, ymin, zmax⟩, ⟨xmax, ymin, zmax⟩,
   ⟨xmin, ymax, zmax⟩, ⟨xmax, ymax, zmax⟩,
   ⟨xmin, ymin, zmin⟩, ⟨xmax, ymin, zmin⟩,
   ⟨xmin, ymax, zmin⟩, ⟨xmax, ymax, zmin⟩]

/-- From the tutorial source: the vertex indices of the twelve edges of the
bounding box; each consecutive two numbers represent one edge. -/
def bbox_indices : List ℕ :=
  [0, 1, 2, 3, 4, 5, 6, 7,
   0, 2, 4, 6, 1, 3, 5, 7,
   0, 4, 2, 6, 1, 5, 3, 7]

/-!  ## Bounding boxes, validity of a loaded font, concrete test data  -/

/-- Componentwise minimum of two 3D points. -/
def vmin (a b : Vec3) : Vec3 := ⟨min a.x b.x, min a.y b.y, min a.z b.z⟩

/-- Componentwise maximum of two 3D points. -/
def vmax (a b : Vec3) : Vec3 := ⟨max a.x b.x, max a.y b.y, max a.z b.z⟩

/-- The axis-aligned bounding box of a vertex list, as the pair of its
minimal and maximal corner; `none` for the empty list. -/
def bbox3 : List Vec3 → Option (Vec3 × Vec3)
  | [] => none
  | v :: rest => some (rest.foldl (fun p u => (vmin p.1 u, vmax p.2 u)) (v, v))

/-- The unit square contour, counter-clockwise. -/
def unitSquare : Polygon2 := [⟨0, 0⟩, ⟨1, 0⟩, ⟨1, 1⟩, ⟨0, 1⟩]

/-- ASCII letter test. -/
def isAsciiLetter (c : Char) : Bool :=
  (decide ('A' ≤ c) && decide (c ≤ 'Z')) || (decide ('a' ≤ c) && decide (c ≤ 'z'))

/-- Modelled from the spec: validity of the loaded font, an assumption on
the external glyph data (sections 1, 3 and 8) — every ASCII letter has a
strictly positive advance width, a renderable outline (at least one contour
survives the contour builder), and every hole loop of its contour set lies
inside some solid loop of the set (the nesting invariant of section 3). -/
def ValidFont (m : TextMesher) : Prop :=
  ∀ c : Char, isAsciiLetter c = true →
    0 < (m.font c).advance ∧
    (buildCharContour m c).contours ≠ [] ∧
    ∀ ct ∈ (buildCharContour m c).contours, ct.clockwise = true →
      ∃ d ∈ (buildCharContour m c).contours,
        d.clockwise = false ∧ contourInside ct d = true

/-- Concrete outline loop: a counter-clockwise 10 by 10 square. -/
def sqLoop : RawLoop :=
  ⟨⟨0, 0⟩, [.lineTo ⟨10, 0⟩, .lineTo ⟨10, 10⟩, .lineTo ⟨0, 10⟩]⟩

/-- Concrete outline loop: a clockwise 6 by 6 square inside `sqLoop`. -/
def holeLoop : RawLoop :=
  ⟨⟨2, 2⟩, [.lineTo ⟨2, 8⟩, .lineTo ⟨8, 8⟩, .lineTo ⟨8, 2⟩]⟩

/-- Concrete glyph with a single solid outline loop. -/
def letterGlyph : Glyph := ⟨[sqLoop], 12⟩

/-- Concrete glyph whose outline contains a hole. -/
def oGlyph : Glyph := ⟨[sqLoop, holeLoop], 12⟩

/-- Concrete glyph with no usable outline but a positive advance. -/
def spaceGlyph : Glyph := ⟨[], 10⟩

/-- A concrete ready TextMesher instance whose font maps every character to
`letterGlyph`. -/
def baseMesher : TextMesher :=
  { font := fun _ => letterGlyph,
    charIndex := fun c => c.toNat,
    rsbDelta := fun _ => 0,
    triangulator := fun _ => emptyMesh,
    ready := true,
    fontFile := "font.ttf",
    fontHeight := 48,
    bezierSteps := 4,
    areaEps := 1,
    prevCharIndex := 0,
    curCharIndex := 0,
    prevRsbDelta := 0 }

/-- A concrete instance whose font failed to load. -/
def mNotReady : TextMesher := { baseMesher with ready := false }

/-- A concrete instance whose font maps every character to the glyph with a
hole. -/
def mO : TextMesher := { baseMesher with font := fun _ => oGlyph }

/-- A concrete instance whose font maps every character to the empty
glyph. -/
def mSpace : TextMesher := { baseMesher with font := fun _ => spaceGlyph }

/-!  ## Theorems  -/

/-- Claim C1: on an instance whose font failed to load (not ready), the
fresh-mesh generate variant returns null and leaves the instance unchanged,
and the append variant returns false and leaves both the target mesh and
the instance unchanged, for every text, starting position and extrusion
height. -/
theorem generate_not_ready_fails (m : TextMesher) (hm : m.ready = false)
    (target : Option IndexedMesh) (text : List Char) (x y h : ℚ) :
    generate_fresh m text x y h = (none, m) ∧
    generate_append m target text x y h = (false, target, m) := by
  refine ⟨by simp [generate_fresh, hm], ?_⟩
  cases target <;> simp [generate_append, hm]

/-- Witness for C1 at a concrete not-ready instance. -/
theorem generate_not_ready_fails_witness :
    mNotReady.ready = false ∧
    (generate_fresh mNotReady (String.toList "ab") 0 0 16 = (none, mNotReady) ∧
     generate_append mNotReady (some emptyMesh) (String.toList "ab") 0 0 16
       = (false, some emptyMesh, mNotReady)) :=
  ⟨rfl, generate_not_ready_fails mNotReady rfl (some emptyMesh) (String.toList "ab") 0 0 16⟩

/-- Claim C2: the append generate variant called with a null target mesh or
with empty input text returns false and leaves the target exactly as it
was. -/
theorem generate_append_invalid_argument (m : TextMesher)
    (target : Option IndexedMesh) (text : List Char) (x y h : ℚ)
    (hinv : target = none ∨ text = []) :
    (generate_append m target text x y h).1 = false ∧
    (generate_append m target text x y h).2.1 = target := by
  rcases hinv with rfl | rfl
  · simp [generate_append]
  · cases target with
    | none => simp [generate_append]
    | some tgt => cases hr : m.ready <;> simp [generate_append, hr]

/-- Witness for C2 at a concrete ready instance with empty text. -/
theorem generate_append_invalid_argument_witness :
    (some emptyMesh = (none : Option IndexedMesh) ∨ ([] : List Char) = []) ∧
    ((generate_append baseMesher (some emptyMesh) [] 0 0 16).1 = false ∧
     (generate_append baseMesher (some emptyMesh) [] 0 0 16).2.1 = some emptyMesh) :=
  ⟨Or.inr rfl,
   generate_append_invalid_argument baseMesher (some emptyMesh) [] 0 0 16 (Or.inr rfl)⟩

/-- Claim C7: for every flat input mesh and every height, the extruded mesh
has exactly twice as many vertices as the flat mesh. -/
theorem extrude_vertex_count (flat : IndexedMesh) (h : ℚ) :
    (extrude flat h).vertices.length = 2 * flat.vertices.length := by
  simp [extrude, two_mul]

/-- Claim C8: extrusion with height exactly 0 produces a flat mesh in which
every vertex has z = 0 (coincident caps, zero volume); heights at or below
zero are only a documented precondition, with the flat result returned for
height 0. -/
theorem extrude_zero_height_flat (flat : IndexedMesh) (v : Vec3)
    (hv : v ∈ (extrude flat 0).vertices) : v.z = 0 := by
  simp only [extrude, List.mem_append, List.mem_map] at hv
  rcases hv with ⟨u, _, rfl⟩ | ⟨u, _, rfl⟩ <;> rfl

/-- Witness for C8: a vertex of the zero-height extrusion of the
triangulated unit square has z = 0. -/
theorem extrude_zero_height_flat_witness :
    (⟨0, 0, 0⟩ : Vec3) ∈ (extrude (triangulateConvex unitSquare) 0).vertices ∧
    (⟨0, 0, 0⟩ : Vec3).z = 0 :=
  ⟨by decide,
   extrude_zero_height_flat (triangulateConvex unitSquare) ⟨0, 0, 0⟩ (by decide)⟩

/-- Claim C10: in the tutorial bounding-box drawable, every entry of the
24-entry edge index list is strictly below 8, the number of corner points,
and each of the 12 consecutive index pairs names two distinct vertices, for
every input box extent. -/
theorem bbox_edges_in_range_and_nondegenerate
    (xmin xmax ymin ymax zmin zmax : ℚ) (i : ℕ) (hi : i ∈ bbox_indices)
    (k : ℕ) (hk : k < 12) :
    i < (bbox_points xmin xmax ymin ymax zmin zmax).length ∧
    bbox_indices.getD (2 * k) 0 ≠ bbox_indices.getD (2 * k + 1) 0 := by
  have h8 : (bbox_points xmin xmax ymin ymax zmin zmax).length = 8 := rfl
  rw [h8]
  revert hk
  refine fun hk => ⟨?_, ?_⟩
  · exact (by decide : ∀ j ∈ bbox_indices, j < 8) i hi
  · exact (by decide : ∀ j < 12, bbox_indices.getD (2 * j) 0 ≠ bbox_indices.getD (2 * j + 1) 0) k hk

/-- Witness for C10 at a concrete box and a concrete edge. -/
theorem bbox_edges_witness :
    (5 ∈ bbox_indices ∧ 3 < 12) ∧
    (5 < (bbox_points 0 1 0 1 0 1).length ∧
     bbox_indices.getD 6 0 ≠ bbox_indices.getD 7 0) :=
  ⟨⟨by decide, by decide⟩,
   bbox_edges_in_range_and_nondegenerate 0 1 0 1 0 1 5 (by decide) 3 (by decide)⟩

/-- Claim C6: a character with no usable outline yields an empty contour
set without signalling an error, and the pen still advances by the glyph
advance width (the y position is unchanged). -/
theorem empty_glyph_advances (m : TextMesher) (c : Char) (x y : ℚ)
    (hg : (m.font c).loops = []) :
    (generate_contours_char m c x y).1.contours = [] ∧
    (generate_contours_char m c x y).2.1 = x + (m.font c).advance ∧
    (generate_contours_char m c x y).2.2.1 = y := by
  refine ⟨?_, rfl, rfl⟩
  simp [generate_contours_char, buildCharContour, hg]

/-- Witness for C6 at a concrete space-like glyph. -/
theorem empty_glyph_advances_witness :
    (mSpace.font ' ').loops = [] ∧
    ((generate_contours_char mSpace ' ' 3 4).1.contours = [] ∧
     (generate_contours_char mSpace ' ' 3 4).2.1 = 3 + (mSpace.font ' ').advance ∧
     (generate_contours_char mSpace ' ' 3 4).2.2.1 = 4) :=
  ⟨rfl, empty_glyph_advances mSpace ' ' 3 4 rfl⟩

/-- The contour set the base instance builds for any character. -/
theorem baseContours (c : Char) : (buildCharContour baseMesher c).contours
    = [⟨[⟨0, 0⟩, ⟨10, 0⟩, ⟨10, 10⟩, ⟨0, 10⟩], false⟩] := by
  show (buildCharContour baseMesher 'A').contours = _
  have h1 : buildContour 1 [⟨0, 0⟩, ⟨10, 0⟩, ⟨10, 10⟩, ⟨0, 10⟩]
      = some ⟨[⟨0, 0⟩, ⟨10, 0⟩, ⟨10, 10⟩, ⟨0, 10⟩], false⟩ := by
    norm_num [buildContour, signedArea, closedEdges]
  simp only [buildCharContour, baseMesher, letterGlyph, sqLoop, flattenLoop,
    flattenSegs, flattenSeg, segEnd, List.map_cons, List.map_nil]
  norm_num [h1, List.filterMap_cons]

/-- The concrete base instance carries a valid font. -/
theorem validFont_base : ValidFont baseMesher := by
  intro c hc
  have hadv : (baseMesher.font c).advance = 12 := rfl
  refine ⟨by rw [hadv]; norm_num, ?_, ?_⟩
  · rw [baseContours c]
    simp
  · rw [baseContours c]
    intro ct hct hcw
    rw [List.mem_singleton] at hct
    rw [hct] at hcw
    exact absurd hcw (by simp)

/-- Claim C4: on a valid loaded font, generating the contours of a
non-whitespace ASCII letter advances x by a strictly positive amount,
returns at least one contour, and every outermost contour of the returned
set is counter-clockwise. -/
theorem letter_contours_positive_advance (m : TextMesher) (hm : ValidFont m)
    (c : Char) (hc : isAsciiLetter c = true) (x y : ℚ) :
    x < (generate_contours_char m c x y).2.1 ∧
    (generate_contours_char m c x y).1.contours ≠ [] ∧
    ∀ ct ∈ (generate_contours_char m c x y).1.contours,
      isOutermost ct (generate_contours_char m c x y).1.contours →
      ct.clockwise = false := by
  obtain ⟨hadv, hne, hnest⟩ := hm c hc
  refine ⟨(lt_add_iff_pos_right x).2 hadv, hne, ?_⟩
  intro ct hct hout
  cases hb : ct.clockwise with
  | false => rfl
  | true =>
    obtain ⟨d, hd, hdcw, hinside⟩ := hnest ct hct hb
    have hne' : d ≠ ct := by
      intro he
      rw [he, hb] at hdcw
      exact Bool.noConfusion hdcw
    have hfalse := hout d hd hne'
    rw [hinside] at hfalse
    exact Bool.noConfusion hfalse

/-- Witness for C4 at the concrete valid instance and the letter A. -/
theorem letter_contours_positive_advance_witness :
    ValidFont baseMesher ∧ isAsciiLetter 'A' = true ∧
    ((0 : ℚ) < (generate_contours_char baseMesher 'A' 0 0).2.1 ∧
     (generate_contours_char baseMesher 'A' 0 0).1.contours ≠ [] ∧
     ∀ ct ∈ (generate_contours_char baseMesher 'A' 0 0).1.contours,
       isOutermost ct (generate_contours_char baseMesher 'A' 0 0).1.contours →
       ct.clockwise = false) :=
  ⟨validFont_base, by decide,
   letter_contours_positive_advance baseMesher validFont_base 'A' (by decide) 0 0⟩

/-- Claim C5: when the raw outline of a glyph contains a hole — a kept
clockwise loop whose points all lie inside a kept counter-clockwise loop —
the returned contour set contains a clockwise contour lying inside a
counter-clockwise contour. -/
theorem glyph_hole_nested (m : TextMesher) (c : Char) (x y : ℚ)
    (heps : 0 < m.areaEps) (hole outer : RawLoop)
    (hmem1 : hole ∈ (m.font c).loops) (hmem2 : outer ∈ (m.font c).loops)
    (ha1 : signedArea (flattenLoop m.bezierSteps hole) ≤ -m.areaEps)
    (ha2 : m.areaEps ≤ signedArea (flattenLoop m.bezierSteps outer))
    (hin : ∀ p ∈ flattenLoop m.bezierSteps hole,
        insidePoly p (flattenLoop m.bezierSteps outer) = true) :
    ∃ ct ∈ (generate_contours_char m c x y).1.contours, ct.clockwise = true ∧
      ∃ d ∈ (generate_contours_char m c x y).1.contours, d.clockwise = false ∧
        contourInside ct d = true := by
  have hhole : buildContour m.areaEps (flattenLoop m.bezierSteps hole)
      = some ⟨flattenLoop m.bezierSteps hole, true⟩ := by
    have hneg : signedArea (flattenLoop m.bezierSteps hole) < 0 := by linarith
    have hcond : ¬ (-m.areaEps < signedArea (flattenLoop m.bezierSteps hole) ∧
        signedArea (flattenLoop m.bezierSteps hole) < m.areaEps) := by
      rintro ⟨h1, -⟩
      linarith
    simp [buildContour, hcond, hneg]
  have houter : buildContour m.areaEps (flattenLoop m.bezierSteps outer)
      = some ⟨flattenLoop m.bezierSteps outer, false⟩ := by
    have hpos : 0 < signedArea (flattenLoop m.bezierSteps outer) :=
      lt_of_lt_of_le heps ha2
    have hcond : ¬ (-m.areaEps < signedArea (flattenLoop m.bezierSteps outer) ∧
        signedArea (flattenLoop m.bezierSteps outer) < m.areaEps) := by
      rintro ⟨-, h2⟩
      linarith
    simp [buildContour, hcond, not_lt.2 hpos.le]
  refine ⟨⟨flattenLoop m.bezierSteps hole, true⟩, ?_, rfl,
          ⟨flattenLoop m.bezierSteps outer, false⟩, ?_, rfl, ?_⟩
  · exact List.mem_filterMap.2
      ⟨flattenLoop m.bezierSteps hole, List.mem_map_of_mem _ hmem1, hhole⟩
  · exact List.mem_filterMap.2
      ⟨flattenLoop m.bezierSteps outer, List.mem_map_of_mem _ hmem2, houter⟩
  · exact List.all_eq_true.2 hin

/-- Witness for C5 at the concrete glyph with a hole. -/
theorem glyph_hole_nested_witness :
    ((0 : ℚ) < mO.areaEps ∧
     holeLoop ∈ (mO.font 'O').loops ∧ sqLoop ∈ (mO.font 'O').loops ∧
     signedArea (flattenLoop mO.bezierSteps holeLoop) ≤ -mO.areaEps ∧
     mO.areaEps ≤ signedArea (flattenLoop mO.bezierSteps sqLoop) ∧
     ∀ p ∈ flattenLoop mO.bezierSteps holeLoop,
       insidePoly p (flattenLoop mO.bezierSteps sqLoop) = true) ∧
    (∃ ct ∈ (generate_contours_char mO 'O' 0 0).1.contours, ct.clockwise = true ∧
      ∃ d ∈ (generate_contours_char mO 'O' 0 0).1.contours, d.clockwise = false ∧
        contourInside ct d = true) :=
  ⟨⟨by decide, by decide, by decide,
    by norm_num [signedArea, closedEdges, flattenLoop, flattenSegs, flattenSeg,
      segEnd, holeLoop, mO, baseMesher],
    by norm_num [signedArea, closedEdges, flattenLoop, flattenSegs, flattenSeg,
      segEnd, sqLoop, mO, baseMesher],
    by norm_num [insidePoly, edgeCrossesRay, closedEdges, flattenLoop,
      flattenSegs, flattenSeg, segEnd, sqLoop, holeLoop, mO, baseMesher]⟩,
   glyph_hole_nested mO 'O' 0 0 (by decide) holeLoop sqLoop (by decide) (by decide)
     (by norm_num [signedArea, closedEdges, flattenLoop, flattenSegs, flattenSeg,
        segEnd, holeLoop, mO, baseMesher])
     (by norm_num [signedArea, closedEdges, flattenLoop, flattenSegs, flattenSeg,
        segEnd, sqLoop, mO, baseMesher])
     (by norm_num [insidePoly, edgeCrossesRay, closedEdges, flattenLoop,
        flattenSegs, flattenSeg, segEnd, sqLoop, holeLoop, mO, baseMesher])⟩

/-- Claim C3: minimally triangulating the unit square contour and then
extruding by a positive height h yields exactly 12 triangles (two side-wall
triangles for each of the four boundary edges plus two triangles per cap),
and the bounding box of the result equals the 2D bounding box of the
contour extended to the interval from 0 to h in z. -/
theorem square_triangulate_extrude_roundtrip (h : ℚ) (hh : 0 < h) :
    (extrude (triangulateConvex unitSquare) h).triangles.length = 12 ∧
    bbox3 (extrude (triangulateConvex unitSquare) h).vertices
      = some (⟨0, 0, 0⟩, ⟨1, 1, h⟩) := by
  constructor
  · rfl
  · show bbox3 [⟨0, 0, 0⟩, ⟨1, 0, 0⟩, ⟨1, 1, 0⟩, ⟨0, 1, 0⟩,
        ⟨0, 0, h⟩, ⟨1, 0, h⟩, ⟨1, 1, h⟩, ⟨0, 1, h⟩] = some (⟨0, 0, 0⟩, ⟨1, 1, h⟩)
    simp only [bbox3, List.foldl_cons, List.foldl_nil, vmin, vmax]
    norm_num [min_def, max_def, hh.le]

/-- Witness for C3 at height 2. -/
theorem square_triangulate_extrude_roundtrip_witness :
    (0 : ℚ) < 2 ∧
    ((extrude (triangulateConvex unitSquare) 2).triangles.length = 12 ∧
     bbox3 (extrude (triangulateConvex unitSquare) 2).vertices
       = some (⟨0, 0, 0⟩, ⟨1, 1, 2⟩)) :=
  ⟨by norm_num, square_triangulate_extrude_roundtrip 2 (by norm_num)⟩

/-- Per-character mesh assembly only rewrites the kerning bookkeeping fields
of the instance: font, triangulation, readiness, subdivision and threshold
configuration are preserved. -/
theorem generate_meshes_preserves (m : TextMesher) (text : List Char) (x y h : ℚ) :
    (generate_meshes m text x y h).2.2.2.font = m.font ∧
    (generate_meshes m text x y h).2.2.2.triangulator = m.triangulator ∧
    (generate_meshes m text x y h).2.2.2.ready = m.ready ∧
    (generate_meshes m text x y h).2.2.2.bezierSteps = m.bezierSteps ∧
    (generate_meshes m text x y h).2.2.2.areaEps = m.areaEps := by
  induction text generalizing m x y with
  | nil => exact ⟨rfl, rfl, rfl, rfl, rfl⟩
  | cons c rest ih => exact ih _ _ _

/-- The mesh and pen outputs of assembly depend only on the font, the
triangulation function, the subdivision count and the area threshold of the
instance — not on the kerning bookkeeping fields. -/
theorem generate_meshes_congr (m m' : TextMesher)
    (hf : m'.font = m.font) (ht : m'.triangulator = m.triangulator)
    (hb : m'.bezierSteps = m.bezierSteps) (he : m'.areaEps = m.areaEps)
    (text : List Char) (x y h : ℚ) :
    (generate_meshes m' text x y h).1 = (generate_meshes m text x y h).1 ∧
    (generate_meshes m' text x y h).2.1 = (generate_meshes m text x y h).2.1 ∧
    (generate_meshes m' text x y h).2.2.1 = (generate_meshes m text x y h).2.2.1 := by
  induction text generalizing m m' x y with
  | nil => exact ⟨rfl, rfl, rfl⟩
  | cons c rest ih =>
    have hcc : buildCharContour m' c = buildCharContour m c := by
      rw [buildCharContour, buildCharContour, hf, hb, he]
    simp only [generate_meshes, generate_contours_char]
    rw [hcc, ht, hf]
    obtain ⟨e1, e2, e3⟩ := ih
      { m with curCharIndex := m.charIndex c, prevCharIndex := m.charIndex c,
               prevRsbDelta := m.rsbDelta c }
      { m' with font := m.font, triangulator := m.triangulator,
                curCharIndex := m'.charIndex c, prevCharIndex := m'.charIndex c,
                prevRsbDelta := m'.rsbDelta c }
      rfl rfl hb he (x + (m.font c).advance) y
    exact ⟨congrArg _ e1, e2, e3⟩

/-- Claim C9: two successive calls to either generate variant with
identical arguments — the second on the instance state left by the first —
produce identical results, vertex for vertex and index for index. -/
theorem generate_repeat_identical (m : TextMesher) (target : Option IndexedMesh)
    (text : List Char) (x y h : ℚ) :
    (generate_fresh ((generate_fresh m text x y h).2) text x y h).1
      = (generate_fresh m text x y h).1 ∧
    (generate_append ((generate_append m target text x y h).2.2) target text x y h).1
      = (generate_append m target text x y h).1 ∧
    (generate_append ((generate_append m target text x y h).2.2) target text x y h).2.1
      = (generate_append m target text x y h).2.1 := by
  have hp := generate_meshes_preserves m text x y h
  have hc := generate_meshes_congr m ((generate_meshes m text x y h).2.2.2)
    hp.1 hp.2.1 hp.2.2.2.1 hp.2.2.2.2 text x y h
  refine ⟨?_, ?_, ?_⟩
  · cases hr : m.ready with
    | false => simp [generate_fresh, hr]
    | true =>
      by_cases htext : text = []
      · simp [generate_fresh, hr, htext]
      · simp [generate_fresh, hr, htext, hp.2.2.1, hc.1]
  · cases target with
    | none => simp [generate_append]
    | some tgt =>
      cases hr : m.ready with
      | false => simp [generate_append, hr]
      | true =>
        by_cases htext : text = []
        · simp [generate_append, hr, htext]
        · simp [generate_append, hr, htext, hp.2.2.1, hc.1]
  · cases target with
    | none => simp [generate_append]
    | some tgt =>
      cases hr : m.ready with
      | false => simp [generate_append, hr]
      | true =>
        by_cases htext : text = []
        · simp [generate_append, hr, htext]
        · simp [generate_append, hr, htext, hp.2.2.1, hc.1]
